import Mathlib

/-!
Verification of the drive file-intake service (Node/Express + multer).

Shallow embedding of the storage core: config (config.js), validation and
metadata utilities (backend/utils/fileUtils.js), the multer middleware
(backend/middleware/upload.js), the storage service
(backend/services/storageService.js) and the HTTP route handlers
(backend/routes/upload.js).  File-system and provider effects are modelled
as explicit parameters (success flags, lookup functions); machine strings
are Lean `String`, timestamps are `Nat`.
-/

namespace Drive

/-! ## String helpers (Node `path` / JS string methods, modelled structurally) -/

/-- Checks that the first list is a prefix of the second; models JS
`String.prototype.startsWith` on the underlying characters. -/
def isPrefixList : List Char → List Char → Bool
  | [], _ => true
  | _ :: _, [] => false
  | p :: ps, x :: xs => p = x && isPrefixList ps xs

/-- Splits a character list on a separator character; models
`String.prototype.split` (always returns at least one segment). -/
def splitOnChar (c : Char) : List Char → List (List Char)
  | [] => [[]]
  | x :: xs =>
    let r := splitOnChar c xs
    if x = c then [] :: r
    else
      match r with
      | [] => [[x]]
      | h :: t => (x :: h) :: t

/-- Last segment of a '/'-separated string; models
`s.split('/').pop()` from fileUtils.js. -/
def lastSegment (s : String) : String :=
  String.mk ((splitOnChar '/' s.data).getLastD [])

/-- Index of the last '.' in a character list, if any. -/
def lastDotIdx : List Char → Option Nat
  | [] => none
  | c :: cs =>
    match lastDotIdx cs with
    | some i => some (i + 1)
    | none => if c = '.' then some 0 else none

/-- Models Node `path.extname`: the substring of the basename from its last
dot onward; empty when there is no dot or the only dot starts the basename
(dotfiles). -/
def extname (s : String) : String :=
  let b := (splitOnChar '/' s.data).getLastD []
  match lastDotIdx b with
  | none => ""
  | some 0 => ""
  | some i => String.mk (b.drop i)

/-- ASCII lower-casing; models JS `String.prototype.toLowerCase` on the
ASCII filenames the service handles. -/
def toLowerStr (s : String) : String :=
  String.mk (s.data.map Char.toLower)

/-- Models Node `path.relative(root, p)` for the paths this service builds,
which are always `root ++ "/" ++ rest`: strips the root segment. -/
def pathRelative (root p : String) : String :=
  if isPrefixList (root ++ "/").data p.data then
    String.mk (p.data.drop (root ++ "/").data.length)
  else p

/-- JS truthiness of an optional string field: `undefined` and the empty
string are falsy. -/
def truthy : Option String → Bool
  | none => false
  | some s => !(s = "")

/-! ## Configuration (config.js, default values) -/

/-- Configuration record; fields mirror config.js (`upload` and `storage`
sections flattened). -/
structure Config where
  maxFileSize : Nat
  uploadDir : String
  allowedTypes : List String
  allowedExtensions : List String
  metadataDir : String
  storageType : String
  cloudFolder : String
deriving DecidableEq, Repr

/-- Default configuration values from config.js (no environment overrides). -/
def defaultConfig : Config where
  maxFileSize := 50 * 1024 * 1024
  uploadDir := "./uploads"
  allowedTypes := ["image/jpeg", "image/png", "image/gif", "application/pdf", "text/plain"]
  allowedExtensions := [".jpg", ".jpeg", ".png", ".gif", ".pdf", ".txt", ".doc", ".docx"]
  metadataDir := "./uploads/metadata"
  storageType := "local"
  cloudFolder := "file-upload-service"

/-! ## Validation (fileUtils.js) -/

/-- fileUtils.js `validateFileType`: the declared MIME type must be in the
allow-list and the lower-cased extension in the extension allow-list. -/
def validateFileType (cfg : Config) (mimeType originalName : String) : Bool :=
  let extension := toLowerStr (extname originalName)
  cfg.allowedTypes.contains mimeType && cfg.allowedExtensions.contains extension

/-- fileUtils.js `validateFileSize`: `size <= config.upload.maxFileSize`. -/
def validateFileSize (cfg : Config) (size : Nat) : Bool :=
  decide (size ≤ cfg.maxFileSize)

/-- Multer file object: the fields of `req.file` the service reads. -/
structure MulterFile where
  originalname : String
  mimetype : String
  size : Nat
  path : String
deriving DecidableEq, Repr

/-- middleware/upload.js `fileFilter`: accepts iff `validateFileType`
passes (rejection carries an INVALID_FILE_TYPE error). -/
def fileFilter (cfg : Config) (f : MulterFile) : Bool :=
  validateFileType cfg f.mimetype f.originalname

/-- Models multer's documented `limits.fileSize` behavior (external
library): a file is accepted iff its byte count does not exceed the limit,
configured in middleware/upload.js as `config.upload.maxFileSize`. -/
def multerFileSizeLimitOk (cfg : Config) (size : Nat) : Bool :=
  decide (size ≤ cfg.maxFileSize)

/-- Outcome of the post-upload validation middleware. -/
inductive UploadCheck where
  | noFile
  | fileTooLarge
  | pass
deriving DecidableEq, Repr

/-- middleware/upload.js `validateUploadedFile`: 400 when no file, 400 when
`validateFileSize` fails, otherwise `next()`. -/
def validateUploadedFile (cfg : Config) (file : Option MulterFile) : UploadCheck :=
  match file with
  | none => .noFile
  | some f => if !(validateFileSize cfg f.size) then .fileTooLarge else .pass

/-! ## Filename and path generation (fileUtils.js), with the UUID supplied
explicitly (the code calls `uuidv4()`). -/

/-- fileUtils.js `generateUniqueFilename`: generated uuid plus the original
extension. -/
def generateUniqueFilename (originalName uuid : String) : String :=
  uuid ++ extname originalName

/-- Result of fileUtils.js `generateFilePath`. -/
structure FilePathInfo where
  fullPath : String
  dateDir : String
  relativePath : String
deriving DecidableEq, Repr

/-- fileUtils.js `generateFilePath`: date-partitioned directory under the
upload root; the `YYYY/MM/DD` part is supplied as `datePath`. -/
def generateFilePath (cfg : Config) (datePath filename : String) : FilePathInfo :=
  let dateDir := cfg.uploadDir ++ "/" ++ datePath
  let fullPath := dateDir ++ "/" ++ filename
  { fullPath := fullPath
    dateDir := dateDir
    relativePath := pathRelative cfg.uploadDir fullPath }

/-! ## File metadata record -/

/-- Metadata record as built by storageService.js / fileUtils.js and stored
as one JSON file per id.  Optional fields are absent (`none`) on records
from the other backend or from legacy formats. -/
structure FileRec where
  id : String
  originalName : String
  fileName : String
  mimeType : String
  size : Nat
  uploadDate : Nat
  path : Option String := none
  relativePath : Option String := none
  url : Option String := none
  publicId : Option String := none
  storageType : Option String := none
deriving DecidableEq, Repr

/-- storageService.js `uploadToLocal`: builds the metadata for a file multer
already wrote to `file.path`; `uniqueId` models the fresh `uuidv4()` call
made here, `now` the timestamp. -/
def uploadToLocal (cfg : Config) (file : MulterFile) (uniqueId : String) (now : Nat) : FileRec where
  id := uniqueId
  originalName := file.originalname
  fileName := uniqueId ++ extname file.originalname
  mimeType := file.mimetype
  size := file.size
  uploadDate := now
  path := some file.path
  relativePath := some (pathRelative cfg.uploadDir file.path)
  storageType := some "local"

/-- Result of one complete local upload: where multer put the blob, and the
metadata record the storage service returned. -/
structure LocalUpload where
  diskFileName : String
  diskPath : String
  metadata : FileRec
deriving DecidableEq, Repr

/-- The local upload flow end to end: multer's diskStorage generates a
filename from `multerUuid` (middleware/upload.js destination/filename
callbacks) and writes the blob there; then `uploadToLocal` builds the
metadata record from a second, independent `serviceUuid`. -/
def localUploadPipeline (cfg : Config) (datePath name mime : String) (size : Nat)
    (multerUuid serviceUuid : String) (now : Nat) : LocalUpload :=
  let diskFileName := generateUniqueFilename name multerUuid
  let fp := generateFilePath cfg datePath diskFileName
  let file : MulterFile :=
    { originalname := name, mimetype := mime, size := size, path := fp.fullPath }
  { diskFileName := diskFileName
    diskPath := fp.fullPath
    metadata := uploadToLocal cfg file serviceUuid now }

/-! ## Metadata store (one JSON file per id, fileUtils.js) -/

/-- Outcome of reading one metadata file from disk: missing (ENOENT from
`fs.readFile`), unreadable (any other `fs.readFile` error), corrupt
(`JSON.parse` throws), or a successfully parsed record. -/
inductive MetaRead where
  | absent
  | unreadable
  | corrupt
  | ok (m : FileRec)
deriving DecidableEq, Repr

/-- The metadata directory, as a map from file id to the read outcome of
`<id>.json`. -/
def MetaStore := String → MetaRead

/-- fileUtils.js `saveFileMetadata`: writes the record as `<id>.json`. -/
def saveFileMetadata (store : MetaStore) (m : FileRec) : MetaStore :=
  fun i => if i = m.id then .ok m else store i

/-- The local branch of fileUtils.js `loadFileMetadata`: `fs.readFile` plus
`JSON.parse`, with every failure caught and turned into `null`. -/
def readLocalMetadata (store : MetaStore) (fileId : String) : Option FileRec :=
  match store fileId with
  | .ok m => some m
  | _ => none

/-- fileUtils.js `loadFileMetadata`: with a cloudinary configuration it
first asks the provider (`getFileMetadataFromCloudinaryById`, modelled by
the `cloud` lookup), falling back to the local metadata files; otherwise it
reads the local file directly.  All errors yield `none`. -/
def loadFileMetadata (cfg : Config) (cloud : String → Option FileRec)
    (store : MetaStore) (fileId : String) : Option FileRec :=
  if cfg.storageType = "cloudinary" then
    match cloud fileId with
    | some m => some m
    | none => readLocalMetadata store fileId
  else readLocalMetadata store fileId

/-! ## Response shapes of the route handlers (routes/upload.js) -/

/-- The per-file object the list and info endpoints put in their responses:
exactly the fields named in routes/upload.js (no path, no relativePath). -/
structure FileView where
  id : String
  originalName : String
  fileName : String
  mimeType : String
  size : Nat
  uploadDate : Nat
  downloadUrl : String
deriving DecidableEq, Repr

/-- The `files.map(...)` projection in GET /api/files. -/
def formatListItem (f : FileRec) : FileView where
  id := f.id
  originalName := f.originalName
  fileName := f.fileName
  mimeType := f.mimeType
  size := f.size
  uploadDate := f.uploadDate
  downloadUrl := "/api/files/" ++ f.id

/-- The `file` object built by GET /api/files/:id/info. -/
def infoView (f : FileRec) : FileView where
  id := f.id
  originalName := f.originalName
  fileName := f.fileName
  mimeType := f.mimeType
  size := f.size
  uploadDate := f.uploadDate
  downloadUrl := "/api/files/" ++ f.id

/-- Response of GET /api/files/:id/info. -/
inductive InfoResponse where
  | notFound
  | ok (v : FileView)
deriving DecidableEq, Repr

/-- Route handler GET /api/files/:id/info. -/
def getInfoHandler (cfg : Config) (cloud : String → Option FileRec)
    (store : MetaStore) (fileId : String) : InfoResponse :=
  match loadFileMetadata cfg cloud store fileId with
  | none => .notFound
  | some m => .ok (infoView m)

/-- Response of GET /api/files/:id (the download route). -/
inductive DownloadResponse where
  | notFound
  | redirect (url : Option String)
  | stream (filePath mime name : String) (size : Nat)
  | invalidMetadata
  | unknownStorageType
deriving DecidableEq, Repr

/-- Route handler GET /api/files/:id: 404 when metadata is missing;
cloudinary records redirect to their stored URL; local (or legacy untyped)
records resolve a path from `relativePath` (new format) or `path` (old
format), 404 when the blob is absent on disk (`diskExists` models
`fs.access`), then stream the file. -/
def downloadHandler (cfg : Config) (cloud : String → Option FileRec)
    (store : MetaStore) (diskExists : String → Bool) (fileId : String) : DownloadResponse :=
  match loadFileMetadata cfg cloud store fileId with
  | none => .notFound
  | some m =>
    if m.storageType = some "cloudinary" then .redirect m.url
    else if m.storageType = some "local" || !(truthy m.storageType) then
      if truthy m.relativePath then
        let filePath := cfg.uploadDir ++ "/" ++ m.relativePath.getD ("")
        if diskExists filePath then .stream filePath m.mimeType m.originalName m.size
        else .notFound
      else if truthy m.path then
        let filePath := m.path.getD ("")
        if diskExists filePath then .stream filePath m.mimeType m.originalName m.size
        else .notFound
      else .invalidMetadata
    else .unknownStorageType

/-! ## Deletion (storageService.js + DELETE route) -/

/-- storageService.js `deleteFromLocal`: resolves the path from
`relativePath` (new) or `path` (old) and unlinks it; `unlinkOk` models
whether `fs.unlink` succeeds at a given path; no path information means
`false` without any unlink attempt. -/
def deleteFromLocal (cfg : Config) (m : FileRec) (unlinkOk : String → Bool) : Bool :=
  if truthy m.relativePath then unlinkOk (cfg.uploadDir ++ "/" ++ m.relativePath.getD (""))
  else if truthy m.path then unlinkOk (m.path.getD (""))
  else false

/-- storageService.js `deleteFromCloudinary`: `destroy(publicId)`, true on
success, false when the provider call throws. -/
def deleteFromCloudinary (_m : FileRec) (destroyOk : Bool) : Bool :=
  destroyOk

/-- storageService.js `deleteFile`: dispatch on the record's storage type. -/
def deleteFile (cfg : Config) (m : FileRec) (unlinkOk : String → Bool)
    (destroyOk : Bool) : Bool :=
  if m.storageType = some "cloudinary" then deleteFromCloudinary m destroyOk
  else deleteFromLocal cfg m unlinkOk

/-- Response of DELETE /api/files/:id. -/
inductive DeleteResponse where
  | notFound
  | ok (id originalName : String)
  | failed
deriving DecidableEq, Repr

/-- Outcome of the delete route: the HTTP response plus which of the two
removals the handler actually attempted (control-flow facts of the code). -/
structure DeleteOutcome where
  resp : DeleteResponse
  blobDeleteAttempted : Bool
  metaDeleteAttempted : Bool
deriving DecidableEq, Repr

/-- Route handler DELETE /api/files/:id: 404 when metadata is missing;
otherwise it calls `storageService.deleteFile` and then unconditionally
attempts to unlink the metadata JSON (`metaUnlinkOk` models that unlink's
success); 200 with id and originalName when both succeeded, one generic
500 "Delete failed" otherwise. -/
def deleteHandler (cfg : Config) (cloud : String → Option FileRec) (store : MetaStore)
    (unlinkOk : String → Bool) (destroyOk : Bool) (metaUnlinkOk : Bool)
    (fileId : String) : DeleteOutcome :=
  match loadFileMetadata cfg cloud store fileId with
  | none => { resp := .notFound, blobDeleteAttempted := false, metaDeleteAttempted := false }
  | some m =>
    let fileDeleted := deleteFile cfg m unlinkOk destroyOk
    let metadataDeleted := metaUnlinkOk
    { resp := if fileDeleted && metadataDeleted then .ok m.id m.originalName else .failed
      blobDeleteAttempted := true
      metaDeleteAttempted := true }

/-! ## Listing and pagination (routes/upload.js GET /api/files) -/

/-- Models the JS idiom `parseInt(q) || d`: a missing or non-numeric query
parameter parses to NaN (here `none`) and falls back to the default, and so
does an explicit 0 (falsy); every other integer, negative ones included,
passes through. -/
def jsOrInt (v : Option Int) (d : Int) : Int :=
  match v with
  | none => d
  | some n => if n = 0 then d else n

/-- The `page` query parameter: `parseInt(req.query.page) || 1`. -/
def pageParam (q : Option Int) : Int :=
  jsOrInt q 1

/-- The `limit` query parameter: `parseInt(req.query.limit) || 10`. -/
def limitParam (q : Option Int) : Int :=
  jsOrInt q 10

/-- Normalizes one bound of `Array.prototype.slice`: negative indices count
from the end, both bounds clamp into `[0, len]`. -/
def jsSliceIdx (len i : Int) : Nat :=
  if i < 0 then (max (len + i) 0).toNat else (min i len).toNat

/-- Models `Array.prototype.slice(start, stop)` including its negative-index
behavior. -/
def jsSlice {α : Type} (l : List α) (start stop : Int) : List α :=
  let s := jsSliceIdx (l.length : Int) start
  let e := jsSliceIdx (l.length : Int) stop
  (l.take e).drop s

/-- Descending order on upload timestamps: the comparator
`(a, b) => new Date(b.uploadDate) - new Date(a.uploadDate)` sorts `a`
before `b` exactly when `b.uploadDate ≤ a.uploadDate`. -/
def dateGE (a b : FileRec) : Prop :=
  b.uploadDate ≤ a.uploadDate

instance : DecidableRel dateGE :=
  fun a b => inferInstanceAs (Decidable (b.uploadDate ≤ a.uploadDate))

instance : IsTotal FileRec dateGE :=
  ⟨fun a b => Nat.le_total b.uploadDate a.uploadDate⟩

instance : IsTrans FileRec dateGE :=
  ⟨fun _ _ _ hab hbc => Nat.le_trans hbc hab⟩

/-- The `allMetadata.sort(...)` call in fileUtils.js `getAllFileMetadata`:
a stable sort by upload date, newest first. -/
def sortByUploadDateDesc (l : List FileRec) : List FileRec :=
  l.insertionSort dateGE

/-- fileUtils.js `getAllFileMetadata` (local branch): read every metadata
file, skip the ones whose read or parse fails, and sort newest first.  The
directory contents are given as the list of per-file read outcomes. -/
def getAllFileMetadata (entries : List MetaRead) : List FileRec :=
  sortByUploadDateDesc (entries.filterMap fun e =>
    match e with
    | .ok m => some m
    | _ => none)

/-- Models `Math.ceil(n / m)` for a nonzero integer divisor (the only case
the code reaches: `limitParam` never returns 0). -/
def jsCeilDiv (n : Nat) (m : Int) : Int :=
  if 0 < m then ((n : Int) + m - 1) / m
  else if m < 0 then -(((n / m.natAbs : Nat) : Int))
  else 0

/-- The `pagination` object of the list response. -/
structure Pagination where
  page : Int
  limit : Int
  totalFiles : Nat
  totalPages : Int
  hasNext : Bool
  hasPrev : Bool
deriving DecidableEq, Repr

/-- Response of GET /api/files. -/
structure ListResponse where
  files : List FileView
  pagination : Pagination
deriving DecidableEq, Repr

/-- Route handler GET /api/files: parse page and limit, gather and sort all
metadata, slice the requested window, and format each record. -/
def listFilesHandler (entries : List MetaRead) (pageQ limitQ : Option Int) : ListResponse :=
  let page := pageParam pageQ
  let limit := limitParam limitQ
  let offset := (page - 1) * limit
  let allFiles := getAllFileMetadata entries
  let totalFiles := allFiles.length
  let totalPages := jsCeilDiv totalFiles limit
  let files := jsSlice allFiles offset (offset + limit)
  { files := files.map formatListItem
    pagination :=
      { page := page
        limit := limit
        totalFiles := totalFiles
        totalPages := totalPages
        hasNext := decide (page < totalPages)
        hasPrev := decide (1 < page) } }

/-! ## Cloudinary listing (fileUtils.js) -/

/-- The provider resource fields read by the two Cloudinary reconstruction
functions; optional fields are absent when the provider did not set them. -/
structure CloudResource where
  public_id : String
  contextCustomOriginalFilename : Option String
  contextOriginalFilename : Option String
  original_filename : Option String
  tags : Option (List String)
  resource_type : String
  format : String
  bytes : Nat
  created_at : Nat
  secure_url : String
deriving DecidableEq, Repr

/-- Strips the `original_name:` marker from a tag; models
`tag.replace('original_name:', '')` on a tag that starts with it (the
first occurrence is the prefix itself). -/
def stripOriginalNameTag (t : String) : String :=
  String.mk (t.data.drop ("original_name:").data.length)

/-- Does a tag carry the encoded original name?  Models
`tag.startsWith('original_name:')`. -/
def hasOriginalNameTag (t : String) : Bool :=
  isPrefixList ("original_name:").data t.data

/-- The originalName fallback chain as written in
`getAllFileMetadataFromCloudinary` (fileUtils.js lines 235-251): start from
the object key, then overwrite from context.custom.original_filename,
context.original_filename, resource.original_filename, or an
`original_name:` tag, in that order of preference. -/
def resolveOriginalNameList (r : CloudResource) : String :=
  if truthy r.contextCustomOriginalFilename then r.contextCustomOriginalFilename.getD ("")
  else if truthy r.contextOriginalFilename then r.contextOriginalFilename.getD ("")
  else if truthy r.original_filename then r.original_filename.getD ("")
  else
    match r.tags with
    | some tags =>
      match tags.find? hasOriginalNameTag with
      | some tag => stripOriginalNameTag tag
      | none => lastSegment r.public_id
    | none => lastSegment r.public_id

/-- The originalName fallback chain as written, a second time, in
`getFileMetadataFromCloudinaryById` (fileUtils.js lines 308-323). -/
def resolveOriginalNameById (r : CloudResource) : String :=
  if truthy r.contextCustomOriginalFilename then r.contextCustomOriginalFilename.getD ("")
  else if truthy r.contextOriginalFilename then r.contextOriginalFilename.getD ("")
  else if truthy r.original_filename then r.original_filename.getD ("")
  else
    match r.tags with
    | some tags =>
      match tags.find? hasOriginalNameTag with
      | some tag => stripOriginalNameTag tag
      | none => lastSegment r.public_id
    | none => lastSegment r.public_id

/-- The fallback chain in the spec's words: custom-metadata field, then
legacy context field, then the provider's own original-filename field, then
a tag-encoded value, then the object key itself. -/
def specOriginalNameChain (r : CloudResource) : String :=
  if truthy r.contextCustomOriginalFilename then r.contextCustomOriginalFilename.getD ("")
  else if truthy r.contextOriginalFilename then r.contextOriginalFilename.getD ("")
  else if truthy r.original_filename then r.original_filename.getD ("")
  else
    match (r.tags.getD []).find? hasOriginalNameTag with
    | some tag => stripOriginalNameTag tag
    | none => lastSegment r.public_id

/-! ## Sample data shared by concrete theorems -/

/-- A concrete local-backend record. -/
def sampleLocalRec : FileRec where
  id := "id1"
  originalName := "report.pdf"
  fileName := "id1.pdf"
  mimeType := "application/pdf"
  size := 3
  uploadDate := 5
  path := some "./uploads/2025/01/01/xyz.pdf"
  relativePath := some "2025/01/01/xyz.pdf"
  storageType := some "local"

/-- A metadata store holding exactly `sampleLocalRec`. -/
def sampleStore : MetaStore :=
  fun i => if i = "id1" then .ok sampleLocalRec else .absent

/-- First-uploaded record (oldest). -/
def uploadRecA : FileRec where
  id := "A"
  originalName := "a.txt"
  fileName := "A.txt"
  mimeType := "text/plain"
  size := 1
  uploadDate := 1
  storageType := some "local"

/-- Second-uploaded record. -/
def uploadRecB : FileRec :=
  { uploadRecA with id := "B", originalName := "b.txt", fileName := "B.txt", uploadDate := 2 }

/-- Third-uploaded record (newest). -/
def uploadRecC : FileRec :=
  { uploadRecA with id := "C", originalName := "c.txt", fileName := "C.txt", uploadDate := 3 }

/-! ## Claims -/

/-- C1: for every (bytes, name, mimeType) that passes size and type
validation, performing upload and then get of the returned id yields a
record whose originalName, mimeType and size fields equal the uploaded
name, mimeType and size exactly (local storage configuration, the backend
the cited code implements). -/
theorem upload_then_get_preserves_fields
    (cfg : Config) (cloud : String → Option FileRec) (store : MetaStore)
    (datePath name mime : String) (size : Nat) (multerUuid serviceUuid : String) (now : Nat)
    (hlocal : cfg.storageType ≠ "cloudinary")
    (_htype : validateFileType cfg mime name = true)
    (_hsize : validateFileSize cfg size = true) :
    loadFileMetadata cfg cloud
        (saveFileMetadata store
          (localUploadPipeline cfg datePath name mime size multerUuid serviceUuid now).metadata)
        (localUploadPipeline cfg datePath name mime size multerUuid serviceUuid now).metadata.id
      = some (localUploadPipeline cfg datePath name mime size multerUuid serviceUuid now).metadata
    ∧ (localUploadPipeline cfg datePath name mime size multerUuid serviceUuid now).metadata.originalName = name
    ∧ (localUploadPipeline cfg datePath name mime size multerUuid serviceUuid now).metadata.mimeType = mime
    ∧ (localUploadPipeline cfg datePath name mime size multerUuid serviceUuid now).metadata.size = size := by
  refine ⟨?_, rfl, rfl, rfl⟩
  simp [loadFileMetadata, hlocal, readLocalMetadata, saveFileMetadata]

/-- Witness for C1 at a concrete jpeg upload. -/
theorem upload_then_get_preserves_fields_witness :
    loadFileMetadata defaultConfig (fun _ => none)
        (saveFileMetadata (fun _ => .absent)
          (localUploadPipeline defaultConfig ("2025/01/02") ("photo.jpg") ("image/jpeg") 4 ("aaa") ("bbb") 0).metadata)
        (localUploadPipeline defaultConfig ("2025/01/02") ("photo.jpg") ("image/jpeg") 4 ("aaa") ("bbb") 0).metadata.id
      = some (localUploadPipeline defaultConfig ("2025/01/02") ("photo.jpg") ("image/jpeg") 4 ("aaa") ("bbb") 0).metadata
    ∧ (localUploadPipeline defaultConfig ("2025/01/02") ("photo.jpg") ("image/jpeg") 4 ("aaa") ("bbb") 0).metadata.originalName = "photo.jpg"
    ∧ (localUploadPipeline defaultConfig ("2025/01/02") ("photo.jpg") ("image/jpeg") 4 ("aaa") ("bbb") 0).metadata.mimeType = "image/jpeg"
    ∧ (localUploadPipeline defaultConfig ("2025/01/02") ("photo.jpg") ("image/jpeg") 4 ("aaa") ("bbb") 0).metadata.size = 4 :=
  upload_then_get_preserves_fields defaultConfig (fun _ => none) (fun _ => .absent)
    ("2025/01/02") ("photo.jpg") ("image/jpeg") 4 ("aaa") ("bbb") 0
    (by decide) (by decide) (by decide)

/-- C2 counterexample: a half-deleted state (blob removed, metadata unlink
failed — or the reverse) produces exactly the same generic failure response
as a run where both removals failed, so the response reported to the caller
does not distinguish which of the two removals succeeded. -/
theorem delete_partial_failure_counterexample :
    (deleteHandler defaultConfig (fun _ => none) sampleStore (fun _ => true) false false ("id1")).resp = .failed
    ∧ (deleteHandler defaultConfig (fun _ => none) sampleStore (fun _ => false) false true ("id1")).resp = .failed
    ∧ (deleteHandler defaultConfig (fun _ => none) sampleStore (fun _ => false) false false ("id1")).resp = .failed
    ∧ deleteFile defaultConfig sampleLocalRec (fun _ => true) false = true
    ∧ deleteFile defaultConfig sampleLocalRec (fun _ => false) false = false := by
  decide

/-- C2 amended: for every existing record the handler attempts both blob
removal and metadata removal even if one fails, and reports success exactly
when both succeeded; but every failure combination collapses into the one
generic failure response, which does not say which removal succeeded. -/
theorem delete_attempts_both_but_collapses_failures
    (cfg : Config) (cloud : String → Option FileRec) (store : MetaStore)
    (unlinkOk : String → Bool) (destroyOk metaUnlinkOk : Bool) (fileId : String) (m : FileRec)
    (h : loadFileMetadata cfg cloud store fileId = some m) :
    (deleteHandler cfg cloud store unlinkOk destroyOk metaUnlinkOk fileId).blobDeleteAttempted = true
    ∧ (deleteHandler cfg cloud store unlinkOk destroyOk metaUnlinkOk fileId).metaDeleteAttempted = true
    ∧ ((deleteHandler cfg cloud store unlinkOk destroyOk metaUnlinkOk fileId).resp = .ok m.id m.originalName
        ↔ deleteFile cfg m unlinkOk destroyOk = true ∧ metaUnlinkOk = true)
    ∧ (deleteFile cfg m unlinkOk destroyOk = false ∨ metaUnlinkOk = false →
        (deleteHandler cfg cloud store unlinkOk destroyOk metaUnlinkOk fileId).resp = .failed) := by
  simp only [deleteHandler, h]
  refine ⟨trivial, trivial, ?_, ?_⟩
  · cases hf : deleteFile cfg m unlinkOk destroyOk <;> cases metaUnlinkOk <;> simp
  · rintro (h1 | h1) <;> simp [h1]

/-- Witness for C2 amended: blob removal succeeds, metadata unlink fails. -/
theorem delete_attempts_both_but_collapses_failures_witness :
    (deleteHandler defaultConfig (fun _ => none) sampleStore (fun _ => true) false false ("id1")).blobDeleteAttempted = true
    ∧ (deleteHandler defaultConfig (fun _ => none) sampleStore (fun _ => true) false false ("id1")).metaDeleteAttempted = true
    ∧ ((deleteHandler defaultConfig (fun _ => none) sampleStore (fun _ => true) false false ("id1")).resp
          = .ok sampleLocalRec.id sampleLocalRec.originalName
        ↔ deleteFile defaultConfig sampleLocalRec (fun _ => true) false = true ∧ false = true)
    ∧ (deleteFile defaultConfig sampleLocalRec (fun _ => true) false = false ∨ false = false →
        (deleteHandler defaultConfig (fun _ => none) sampleStore (fun _ => true) false false ("id1")).resp = .failed) :=
  delete_attempts_both_but_collapses_failures defaultConfig (fun _ => none) sampleStore
    (fun _ => true) false false ("id1") sampleLocalRec (by decide)

/-- C3 counterexample: multer names the blob after its own UUID, while the
metadata record is built from a second UUID generated afterwards, so the
record's id and fileName do not match the on-disk filename. -/
theorem local_upload_filename_counterexample :
    (localUploadPipeline defaultConfig ("2025/01/02") ("photo.jpg") ("image/jpeg") 4 ("aaa") ("bbb") 0).diskFileName = "aaa.jpg"
    ∧ (localUploadPipeline defaultConfig ("2025/01/02") ("photo.jpg") ("image/jpeg") 4 ("aaa") ("bbb") 0).metadata.id = "bbb"
    ∧ (localUploadPipeline defaultConfig ("2025/01/02") ("photo.jpg") ("image/jpeg") 4 ("aaa") ("bbb") 0).metadata.fileName = "bbb.jpg"
    ∧ (localUploadPipeline defaultConfig ("2025/01/02") ("photo.jpg") ("image/jpeg") 4 ("aaa") ("bbb") 0).metadata.fileName
        ≠ (localUploadPipeline defaultConfig ("2025/01/02") ("photo.jpg") ("image/jpeg") 4 ("aaa") ("bbb") 0).diskFileName
    ∧ (localUploadPipeline defaultConfig ("2025/01/02") ("photo.jpg") ("image/jpeg") 4 ("aaa") ("bbb") 0).diskFileName
        ≠ (localUploadPipeline defaultConfig ("2025/01/02") ("photo.jpg") ("image/jpeg") 4 ("aaa") ("bbb") 0).metadata.id
          ++ extname ("photo.jpg") := by
  decide

/-- C3 amended: the blob's on-disk filename is the multer-generated UUID
plus the original extension (never the client-supplied name), fixed before
the blob write; the record's id and fileName use a second UUID generated
after the write, so they differ from the on-disk name whenever the two
UUIDs differ; the record resolves to the stored blob only through its path
and relativePath fields. -/
theorem local_upload_filename_amended
    (cfg : Config) (datePath name mime : String) (size : Nat)
    (multerUuid serviceUuid : String) (now : Nat) :
    (localUploadPipeline cfg datePath name mime size multerUuid serviceUuid now).diskFileName
      = multerUuid ++ extname name
    ∧ (localUploadPipeline cfg datePath name mime size multerUuid serviceUuid now).diskPath
      = cfg.uploadDir ++ "/" ++ datePath ++ "/" ++ (multerUuid ++ extname name)
    ∧ (localUploadPipeline cfg datePath name mime size multerUuid serviceUuid now).metadata.id = serviceUuid
    ∧ (localUploadPipeline cfg datePath name mime size multerUuid serviceUuid now).metadata.fileName
      = serviceUuid ++ extname name
    ∧ (localUploadPipeline cfg datePath name mime size multerUuid serviceUuid now).metadata.path
      = some (localUploadPipeline cfg datePath name mime size multerUuid serviceUuid now).diskPath
    ∧ (localUploadPipeline cfg datePath name mime size multerUuid serviceUuid now).metadata.relativePath
      = some (pathRelative cfg.uploadDir
          (localUploadPipeline cfg datePath name mime size multerUuid serviceUuid now).diskPath) :=
  ⟨rfl, rfl, rfl, rfl, rfl, rfl⟩

/-- C4 counterexample: a negative page or limit query value is not clamped
to a positive integer — it passes through unchanged, so the listing
computes from a non-positive page and limit. -/
theorem pagination_negative_not_clamped :
    pageParam (some (-5)) = -5
    ∧ ¬(0 < pageParam (some (-5)))
    ∧ limitParam (some (-3)) = -3
    ∧ ¬(0 < limitParam (some (-3))) := by
  decide

/-- C4 amended: page and pageSize default to 1 and 10 when the parameter is
missing or non-numeric, and an explicit 0 also falls back to the default
(JS falsiness); every nonzero value, negative values included, is used
as-is without clamping. -/
theorem pagination_defaults_amended (n : Int) :
    pageParam none = 1
    ∧ limitParam none = 10
    ∧ pageParam (some 0) = 1
    ∧ limitParam (some 0) = 10
    ∧ pageParam (some n) = (if n = 0 then 1 else n)
    ∧ limitParam (some n) = (if n = 0 then 10 else n) :=
  ⟨rfl, rfl, by decide, by decide, rfl, rfl⟩

/-- C5: validation accepts a (mimeType, fileName) pair only when both the
declared MIME type is in the MIME allow-list and the lowercased extension
is in the extension allow-list; in particular image/jpeg with file.exe is
rejected even though the MIME type alone is allow-listed. -/
theorem validateFileType_requires_both :
    (∀ (cfg : Config) (m n : String),
      validateFileType cfg m n = true
        ↔ cfg.allowedTypes.contains m = true
          ∧ cfg.allowedExtensions.contains (toLowerStr (extname n)) = true)
    ∧ validateFileType defaultConfig ("image/jpeg") ("file.exe") = false
    ∧ defaultConfig.allowedTypes.contains ("image/jpeg") = true
    ∧ fileFilter defaultConfig { originalname := "file.exe", mimetype := "image/jpeg", size := 1, path := "" } = false := by
  refine ⟨?_, by decide, by decide, by decide⟩
  intro cfg m n
  simp [validateFileType, Bool.and_eq_true]

/-- C6: a file of exactly the configured maximum size passes every size
check (multer's limit and the explicit validation middleware), and a file
one byte over fails both and is rejected with the file-too-large validation
error. -/
theorem size_boundary_accept_reject (cfg : Config) (name mime pth : String) :
    validateFileSize cfg cfg.maxFileSize = true
    ∧ validateFileSize cfg (cfg.maxFileSize + 1) = false
    ∧ multerFileSizeLimitOk cfg cfg.maxFileSize = true
    ∧ multerFileSizeLimitOk cfg (cfg.maxFileSize + 1) = false
    ∧ validateUploadedFile cfg
        (some { originalname := name, mimetype := mime, size := cfg.maxFileSize, path := pth }) = .pass
    ∧ validateUploadedFile cfg
        (some { originalname := name, mimetype := mime, size := cfg.maxFileSize + 1, path := pth }) = .fileTooLarge := by
  have h1 : validateFileSize cfg cfg.maxFileSize = true := by
    simp [validateFileSize]
  have h2 : validateFileSize cfg (cfg.maxFileSize + 1) = false := by
    simp [validateFileSize]
  refine ⟨h1, h2, ?_, ?_, ?_, ?_⟩
  · simp [multerFileSizeLimitOk]
  · simp [multerFileSizeLimitOk]
  · simp [validateUploadedFile, h1]
  · simp [validateUploadedFile, h2]

/-- C7: listing orders records by upload timestamp descending, and over
three records uploaded in order A, B, C (whatever order the metadata
directory lists them in), page 2 with pageSize 1 returns exactly record B
with hasNext and hasPrev both true. -/
theorem listing_sorted_desc_and_page2 :
    (∀ l : List FileRec, (sortByUploadDateDesc l).Sorted dateGE)
    ∧ (∀ entries : List MetaRead, (getAllFileMetadata entries).Sorted dateGE)
    ∧ (listFilesHandler [.ok uploadRecA, .ok uploadRecB, .ok uploadRecC] (some 2) (some 1)).files
        = [formatListItem uploadRecB]
    ∧ (listFilesHandler [.ok uploadRecA, .ok uploadRecB, .ok uploadRecC] (some 2) (some 1)).pagination.hasNext = true
    ∧ (listFilesHandler [.ok uploadRecA, .ok uploadRecB, .ok uploadRecC] (some 2) (some 1)).pagination.hasPrev = true
    ∧ (listFilesHandler [.ok uploadRecC, .ok uploadRecB, .ok uploadRecA] (some 2) (some 1)).files
        = [formatListItem uploadRecB]
    ∧ (listFilesHandler [.ok uploadRecB, .ok uploadRecC, .ok uploadRecA] (some 2) (some 1)).files
        = [formatListItem uploadRecB] :=
  ⟨fun l => List.sorted_insertionSort dateGE l,
   fun _ => List.sorted_insertionSort dateGE _,
   by decide, by decide, by decide, by decide, by decide⟩

/-- C8: both Cloudinary reconstruction sites resolve originalName through
the identical deterministic fallback chain, and that chain is the one the
spec describes: custom-metadata field, legacy context field, the provider's
own original-filename field, a tag-encoded value, then the object key. -/
theorem cloud_originalName_fallback_chain (r : CloudResource) :
    resolveOriginalNameList r = resolveOriginalNameById r
    ∧ resolveOriginalNameList r = specOriginalNameChain r := by
  refine ⟨rfl, ?_⟩
  cases h : r.tags with
  | none =>
    simp only [resolveOriginalNameList, specOriginalNameChain, h, Option.getD_none,
      List.find?_nil]
  | some tags =>
    simp only [resolveOriginalNameList, specOriginalNameChain, h, Option.getD_some]

/-- C9: an identifier whose metadata file exists but cannot be read or
parsed behaves exactly like a missing record: metadata loading returns
none, and the download, info and delete routes all answer NotFound rather
than an internal error. -/
theorem corrupt_metadata_reported_notFound
    (cfg : Config) (cloud : String → Option FileRec) (store : MetaStore)
    (diskExists : String → Bool) (unlinkOk : String → Bool)
    (destroyOk metaUnlinkOk : Bool) (fileId : String)
    (hbad : store fileId = .unreadable ∨ store fileId = .corrupt)
    (hcloud : cfg.storageType = "cloudinary" → cloud fileId = none) :
    loadFileMetadata cfg cloud store fileId = none
    ∧ downloadHandler cfg cloud store diskExists fileId = .notFound
    ∧ getInfoHandler cfg cloud store fileId = .notFound
    ∧ (deleteHandler cfg cloud store unlinkOk destroyOk metaUnlinkOk fileId).resp = .notFound := by
  have hlocal : readLocalMetadata store fileId = none := by
    cases hbad with
    | inl h => simp [readLocalMetadata, h]
    | inr h => simp [readLocalMetadata, h]
  have hload : loadFileMetadata cfg cloud store fileId = none := by
    unfold loadFileMetadata
    by_cases hc : cfg.storageType = "cloudinary"
    · simp [hc, hcloud hc, hlocal]
    · simp [hc, hlocal]
  exact ⟨hload, by simp [downloadHandler, hload], by simp [getInfoHandler, hload],
    by simp [deleteHandler, hload]⟩

/-- Witness for C9: a store whose every metadata file is corrupt. -/
theorem corrupt_metadata_reported_notFound_witness :
    loadFileMetadata defaultConfig (fun _ => none) (fun _ => .corrupt) ("x") = none
    ∧ downloadHandler defaultConfig (fun _ => none) (fun _ => .corrupt) (fun _ => false) ("x") = .notFound
    ∧ getInfoHandler defaultConfig (fun _ => none) (fun _ => .corrupt) ("x") = .notFound
    ∧ (deleteHandler defaultConfig (fun _ => none) (fun _ => .corrupt) (fun _ => false) false false ("x")).resp = .notFound :=
  corrupt_metadata_reported_notFound defaultConfig (fun _ => none) (fun _ => .corrupt)
    (fun _ => false) (fun _ => false) false false ("x")
    (Or.inr rfl) (fun h => absurd h (by decide))

/-! ## C10: the list and info responses never expose the locator fields -/

/-- Agreement on every field except the stored locator fields `path` and
`relativePath`. -/
def sameButLocator (r s : FileRec) : Prop :=
  r.id = s.id ∧ r.originalName = s.originalName ∧ r.fileName = s.fileName
    ∧ r.mimeType = s.mimeType ∧ r.size = s.size ∧ r.uploadDate = s.uploadDate
    ∧ r.url = s.url ∧ r.publicId = s.publicId ∧ r.storageType = s.storageType

instance (r s : FileRec) : Decidable (sameButLocator r s) := by
  unfold sameButLocator
  exact inferInstance

lemma sameButLocator_date {r s : FileRec} (h : sameButLocator r s) :
    r.uploadDate = s.uploadDate :=
  h.2.2.2.2.2.1

lemma formatListItem_congr {r s : FileRec} (h : sameButLocator r s) :
    formatListItem r = formatListItem s := by
  obtain ⟨h1, h2, h3, h4, h5, h6, -, -, -⟩ := h
  simp [formatListItem, h1, h2, h3, h4, h5, h6]

lemma infoView_congr {r s : FileRec} (h : sameButLocator r s) :
    infoView r = infoView s := by
  obtain ⟨h1, h2, h3, h4, h5, h6, -, -, -⟩ := h
  simp [infoView, h1, h2, h3, h4, h5, h6]

lemma forall₂_orderedInsert {a b : FileRec} {l₁ l₂ : List FileRec}
    (hab : sameButLocator a b) (h : List.Forall₂ sameButLocator l₁ l₂) :
    List.Forall₂ sameButLocator (l₁.orderedInsert dateGE a) (l₂.orderedInsert dateGE b) := by
  induction h with
  | nil => exact List.Forall₂.cons hab List.Forall₂.nil
  | @cons x y l₁' l₂' hxy htail ih =>
    have hdate : dateGE a x ↔ dateGE b y := by
      unfold dateGE
      rw [sameButLocator_date hab, sameButLocator_date hxy]
    by_cases hc : dateGE a x
    · simp only [List.orderedInsert]
      rw [if_pos hc, if_pos (hdate.mp hc)]
      exact .cons hab (.cons hxy htail)
    · simp only [List.orderedInsert]
      rw [if_neg hc, if_neg (fun hh => hc (hdate.mpr hh))]
      exact .cons hxy ih

lemma forall₂_sortDesc {l₁ l₂ : List FileRec} (h : List.Forall₂ sameButLocator l₁ l₂) :
    List.Forall₂ sameButLocator (sortByUploadDateDesc l₁) (sortByUploadDateDesc l₂) := by
  unfold sortByUploadDateDesc
  induction h with
  | nil => exact .nil
  | cons hxy htail ih =>
    simp only [List.insertionSort]
    exact forall₂_orderedInsert hxy ih

lemma forall₂_jsSlice {α : Type} {R : α → α → Prop} {l₁ l₂ : List α}
    (h : List.Forall₂ R l₁ l₂) (s e : Int) :
    List.Forall₂ R (jsSlice l₁ s e) (jsSlice l₂ s e) := by
  unfold jsSlice
  rw [h.length_eq]
  exact List.forall₂_drop _ (List.forall₂_take _ h)

lemma map_formatListItem_congr {l₁ l₂ : List FileRec}
    (h : List.Forall₂ sameButLocator l₁ l₂) :
    l₁.map formatListItem = l₂.map formatListItem := by
  induction h with
  | nil => rfl
  | cons hxy htail ih => simp [formatListItem_congr hxy, ih]

lemma getAllFileMetadata_map_ok (l : List FileRec) :
    getAllFileMetadata (l.map MetaRead.ok) = sortByUploadDateDesc l := by
  unfold getAllFileMetadata
  congr 1
  induction l with
  | nil => rfl
  | cons x xs ih => simp only [List.map_cons, List.filterMap_cons, ih]

/-- C10: the list and info responses contain no locator information — for
any two stored records (or stores) that differ only in their path and
relativePath values, the formatted list items, the info view, and the whole
list response are identical. -/
theorem responses_omit_locator_fields :
    (∀ r s : FileRec, sameButLocator r s → formatListItem r = formatListItem s ∧ infoView r = infoView s)
    ∧ (∀ (l₁ l₂ : List FileRec) (pageQ limitQ : Option Int),
        List.Forall₂ sameButLocator l₁ l₂ →
        listFilesHandler (l₁.map .ok) pageQ limitQ = listFilesHandler (l₂.map .ok) pageQ limitQ) := by
  refine ⟨fun r s h => ⟨formatListItem_congr h, infoView_congr h⟩, ?_⟩
  intro l₁ l₂ pageQ limitQ h
  have hsort := forall₂_sortDesc h
  have hlen : (sortByUploadDateDesc l₁).length = (sortByUploadDateDesc l₂).length :=
    hsort.length_eq
  have hfiles : ∀ s e : Int,
      (jsSlice (sortByUploadDateDesc l₁) s e).map formatListItem
        = (jsSlice (sortByUploadDateDesc l₂) s e).map formatListItem :=
    fun s e => map_formatListItem_congr (forall₂_jsSlice hsort s e)
  unfold listFilesHandler
  rw [getAllFileMetadata_map_ok, getAllFileMetadata_map_ok]
  simp only [hlen, hfiles]

/-- Witness for C10 at two concrete locator-variants of the same record. -/
theorem responses_omit_locator_fields_witness :
    formatListItem { sampleLocalRec with path := some "/tmp/a", relativePath := some "a" }
      = formatListItem { sampleLocalRec with path := some "/tmp/b", relativePath := none }
    ∧ listFilesHandler [.ok { sampleLocalRec with path := some "/tmp/a", relativePath := some "a" }] (some 1) (some 10)
      = listFilesHandler [.ok { sampleLocalRec with path := some "/tmp/b", relativePath := none }] (some 1) (some 10) :=
  ⟨(responses_omit_locator_fields.1
      { sampleLocalRec with path := some "/tmp/a", relativePath := some "a" }
      { sampleLocalRec with path := some "/tmp/b", relativePath := none }
      (by decide)).1,
   responses_omit_locator_fields.2
      [{ sampleLocalRec with path := some "/tmp/a", relativePath := some "a" }]
      [{ sampleLocalRec with path := some "/tmp/b", relativePath := none }]
      (some 1) (some 10)
      (List.Forall₂.cons (by decide) List.Forall₂.nil)⟩

end Drive
